import Mathlib

/-!
Verification of the Google Drive upload extension's core engine.

The development shallowly embeds the TypeScript sources:
  * `src/lib/file-utils.ts`   — filesystem flattening (`getAllFiles`, `walkDirectory`,
    `getFileMetadata`, `extractFolderStructure`);
  * `src/lib/google-drive.ts` — remote folder operations (`ensureFolder`, `createFolder`)
    and `uploadFileWithRetry`;
  * `src/upload-file.tsx`     — the `handleUpload` batch run (hierarchy construction,
    per-unit upload loop, link choice);
  * the auth module           — `refreshTokens`, `getValidAccessToken`, `removeAccount`.

Filesystem paths are modelled as lists of segments (`List String`); a path string
"a/b/c" is `["a", "b", "c"]` and the dot path "." is `[]`.  Machine integers do not
occur; all sizes and counters are `Nat`.  Network effects are made explicit: each
remote call site takes the response it would receive as an argument, and the Drive
folder store is an explicit state threaded through folder creation.
-/

namespace GDriveUpload

/-- Embeds the JavaScript check `name.startsWith(".")` used by the directory walker:
true exactly when the first character of the string is a dot. -/
def startsWithDot (s : String) : Bool :=
  match s.data with
  | [] => false
  | c :: _ => c == '.'

/-- Embeds JavaScript `haystack.includes(needle)` on the underlying character lists:
true when `sub` occurs contiguously inside the other list. -/
def containsSub (sub : List Char) : List Char → Bool
  | [] => sub.isEmpty
  | c :: rest => sub.isPrefixOf (c :: rest) || containsSub sub rest

/-- String form of `containsSub`: `strIncludes s sub` embeds `s.includes(sub)`. -/
def strIncludes (s sub : String) : Bool :=
  containsSub sub.data s.data

/-- Embeds JavaScript `s.trim()`: strips whitespace from both ends. -/
def jsTrim (s : String) : String :=
  String.mk (((s.data.dropWhile Char.isWhitespace).reverse.dropWhile Char.isWhitespace).reverse)

/-- A local filesystem entry: a regular file or a directory with its entries
(the tree a sequence of `readdirSync` calls would reveal). -/
inductive FSEntry where
  | file (name : String)
  | dir (name : String) (entries : List FSEntry)

/-- The name of a filesystem entry. -/
def FSEntry.name : FSEntry → String
  | .file n => n
  | .dir n _ => n

/-- `FileMetadata` from `types.ts`, with paths as segment lists.  `size`, `mimeType`
and `isDirectory` are carried by the source record but play no role in the claims
about flattening, so the embedding keeps the fields the claims inspect. -/
structure FileMetadata where
  path : List String
  name : String
  relativePath : Option (List String)
deriving Repr, DecidableEq

/-- Embeds `path.relative(base, path)` at the walker's call sites, where `base` is
always an ancestor prefix of `path`: the result is the remaining segments. -/
def relativeSegments (base path : List String) : List String :=
  path.drop base.length

/-- Embeds `getFileMetadata(path, basePath?)` from `file-utils.ts`: name is the last
segment, and `relativePath` is `relative(basePath, path)` when a base is given. -/
def getFileMetadata (path : List String) (basePath : Option (List String)) : FileMetadata :=
  { path := path,
    name := path.getLastD "",
    relativePath := basePath.map (fun b => relativeSegments b path) }

/-- Embeds `walkDirectory(dirPath, basePath)` from `file-utils.ts`.  The directory's
entries are walked in order; an entry whose name starts with "." is skipped
entirely (file or subdirectory); files yield metadata relative to `base`;
subdirectories are walked recursively with the same `base`. -/
def walkDirectory (entries : List FSEntry) (dirPath : List String) (base : List String) :
    List FileMetadata :=
  match entries with
  | [] => []
  | FSEntry.file name :: rest =>
      (if startsWithDot name then [] else [getFileMetadata (dirPath ++ [name]) (some base)])
        ++ walkDirectory rest dirPath base
  | FSEntry.dir name sub :: rest =>
      (if startsWithDot name then [] else walkDirectory sub (dirPath ++ [name]) base)
        ++ walkDirectory rest dirPath base

/-- A selected Finder item: the absolute path of its parent directory together with
the filesystem entry at the selected path. -/
def SelectedItem : Type := List String × FSEntry

/-- Embeds `getAllFiles(paths)` from `file-utils.ts`: a selected directory `d` is
walked with `basePath = dirname(d)` (its parent), a selected plain file is emitted
directly with no base path. -/
def getAllFiles (sel : List SelectedItem) : List FileMetadata :=
  match sel with
  | [] => []
  | (parent, FSEntry.dir name entries) :: rest =>
      walkDirectory entries (parent ++ [name]) parent ++ getAllFiles rest
  | (parent, FSEntry.file name) :: rest =>
      getFileMetadata (parent ++ [name]) none :: getAllFiles rest

/-- Every unit emitted by a walk sits strictly below the walked directory, every
segment added below the walked directory is non-hidden, and the unit's relative
path is its path relative to the walk's base. -/
theorem walkDirectory_units (entries : List FSEntry) (dirPath base : List String)
    (u : FileMetadata) (hu : u ∈ walkDirectory entries dirPath base) :
    ∃ t, u.path = dirPath ++ t ∧ t ≠ [] ∧ (∀ s ∈ t, startsWithDot s = false) ∧
      u.relativePath = some (u.path.drop base.length) := by
  induction entries, dirPath, base using walkDirectory.induct with
  | case1 dirPath base =>
      simp [walkDirectory] at hu
  | case2 dirPath base name rest ih =>
      rw [walkDirectory] at hu
      rcases List.mem_append.1 hu with hl | hr
      · by_cases hdot : startsWithDot name
        · simp [hdot] at hl
        · simp [hdot] at hl
          refine ⟨[name], ?_, by simp, ?_, ?_⟩
          · simp [hl, getFileMetadata]
          · intro s hs
            simp at hs
            simpa [hs] using Bool.of_not_eq_true hdot
          · simp [hl, getFileMetadata, relativeSegments]
      · exact ih hr
  | case3 dirPath base name sub rest ih₁ ih₂ =>
      rw [walkDirectory] at hu
      rcases List.mem_append.1 hu with hl | hr
      · by_cases hdot : startsWithDot name
        · simp [hdot] at hl
        · simp [hdot] at hl
          obtain ⟨t, hpath, hne, hclean, hrel⟩ := ih₁ hl
          refine ⟨name :: t, by simpa using hpath, by simp, ?_, hrel⟩
          intro s hs
          rcases List.mem_cons.1 hs with hs | hs
          · subst hs
            exact Bool.of_not_eq_true hdot
          · exact hclean s hs
      · exact ih₂ hr

/-- Claim C4: flattening a selection emits, for each directly selected plain file,
exactly one unit with no relative path; and for each file found under a selected
directory, a unit whose relative path is its path relative to the parent of the
selected directory, so the selected directory's own name is the first segment of
every such relative path. -/
theorem getAllFiles_relative_paths (parent : List String) (name : String)
    (entries : List FSEntry) (rest : List SelectedItem) :
    (getAllFiles ((parent, FSEntry.file name) :: rest) =
        getFileMetadata (parent ++ [name]) none :: getAllFiles rest ∧
      (getFileMetadata (parent ++ [name]) none).relativePath = none) ∧
    (∀ u ∈ walkDirectory entries (parent ++ [name]) parent,
      ∃ t, u.path = parent ++ name :: t ∧
        u.relativePath = some (relativeSegments parent u.path) ∧
        u.relativePath = some (name :: t)) := by
  constructor
  · exact ⟨rfl, by simp [getFileMetadata]⟩
  · intro u hu
    obtain ⟨t, hpath, _, _, hrel⟩ := walkDirectory_units entries (parent ++ [name]) parent u hu
    refine ⟨t, by simp [hpath], ?_, ?_⟩
    · simpa [relativeSegments] using hrel
    · rw [hrel, hpath]
      simp

/-- Witness for C4 on the spec's scenario: selecting `/Users/a/photos` (containing
`x.jpg` and `sub/y.png`) yields units whose relative paths start with `photos`. -/
theorem getAllFiles_relative_paths_witness :
    (getAllFiles ((["Users", "a"], FSEntry.file "doc.pdf") :: []) =
        getFileMetadata (["Users", "a"] ++ ["doc.pdf"]) none :: getAllFiles [] ∧
      (getFileMetadata (["Users", "a"] ++ ["doc.pdf"]) none).relativePath = none) ∧
    (∃ t, (getFileMetadata (["Users", "a", "photos", "sub"] ++ ["y.png"])
            (some ["Users", "a"])).path = ["Users", "a"] ++ "photos" :: t ∧
      (getFileMetadata (["Users", "a", "photos", "sub"] ++ ["y.png"])
            (some ["Users", "a"])).relativePath =
        some (relativeSegments ["Users", "a"]
          (getFileMetadata (["Users", "a", "photos", "sub"] ++ ["y.png"])
            (some ["Users", "a"])).path) ∧
      (getFileMetadata (["Users", "a", "photos", "sub"] ++ ["y.png"])
            (some ["Users", "a"])).relativePath = some ("photos" :: t)) := by
  have h := getAllFiles_relative_paths ["Users", "a"] "doc.pdf" [] []
  have h₂ := getAllFiles_relative_paths ["Users", "a"] "photos"
    [FSEntry.dir "sub" [FSEntry.file "y.png"]] []
  refine ⟨h.1, ?_⟩
  refine h₂.2 (getFileMetadata (["Users", "a", "photos", "sub"] ++ ["y.png"])
    (some ["Users", "a"])) ?_
  simp [walkDirectory, startsWithDot]

/-- Claim C10: the hidden-file filter applies only inside walked directories — a
directly selected plain file whose name begins with "." is still emitted, while a
hidden entry met during a walk (file or directory, any depth) yields no unit. -/
theorem hidden_filter_only_in_walk (parent : List String) (name : String)
    (rest : List SelectedItem) (hdot : startsWithDot name = true) :
    (getAllFiles ((parent, FSEntry.file name) :: rest) =
        getFileMetadata (parent ++ [name]) none :: getAllFiles rest) ∧
    (∀ e : FSEntry, ∀ es dirPath base, startsWithDot e.name = true →
      walkDirectory (e :: es) dirPath base = walkDirectory es dirPath base) ∧
    (∀ entries dirPath base, ∀ u ∈ walkDirectory entries dirPath base,
      ∀ s ∈ u.path.drop dirPath.length, startsWithDot s = false) := by
  refine ⟨rfl, ?_, ?_⟩
  · intro e es dirPath base he
    cases e with
    | file n =>
        simp only [FSEntry.name] at he
        rw [walkDirectory]
        simp [he]
    | dir n sub =>
        simp only [FSEntry.name] at he
        rw [walkDirectory]
        simp [he]
  · intro entries dirPath base u hu s hs
    obtain ⟨t, hpath, _, hclean, _⟩ := walkDirectory_units entries dirPath base u hu
    rw [hpath] at hs
    simp at hs
    exact hclean s hs

/-- Witness for C10: a directly selected `.env` file is emitted, while a walked
directory containing `.hidden` and a `.git` subdirectory emits nothing for them. -/
theorem hidden_filter_only_in_walk_witness :
    (getAllFiles (([ "home" ], FSEntry.file ".env") :: []) =
        getFileMetadata (["home"] ++ [".env"]) none :: getAllFiles []) ∧
    walkDirectory [FSEntry.file ".hidden", FSEntry.dir ".git" [FSEntry.file "config"]]
      ["home", "proj"] ["home"] = [] := by
  have h := hidden_filter_only_in_walk ["home"] ".env" [] (by decide)
  refine ⟨h.1, ?_⟩
  have h₁ := h.2.1 (FSEntry.file ".hidden")
    [FSEntry.dir ".git" [FSEntry.file "config"]] ["home", "proj"] ["home"] (by decide)
  have h₂ := h.2.1 (FSEntry.dir ".git" [FSEntry.file "config"]) [] ["home", "proj"] ["home"]
    (by decide)
  rw [h₁, h₂, walkDirectory]

/-- `GoogleDriveFolder` from `types.ts`, specialised to the model: Drive reports at
most one meaningful parent, so the record carries it directly ("root" for My
Drive), together with the trashed flag the search query filters on. -/
structure GoogleDriveFolder where
  id : String
  name : String
  parent : String
  trashed : Bool
deriving Repr, DecidableEq

/-- The remote Drive folder store: the folders the API would report, plus a counter
from which the server mints fresh folder ids. -/
structure DriveState where
  folders : List GoogleDriveFolder
  nextId : Nat
deriving Repr, DecidableEq

/-- A server-assigned id for the `nextId`-th created folder. -/
def freshFolderId (n : Nat) : String :=
  "folder-" ++ toString n

/-- Embeds `createFolder(folderName, accessToken, parentFolderId?)` from
`google-drive.ts`: create a folder under the given parent (Drive places it in
"root" when no parent is sent), returning the created record. -/
def createFolder (folderName : String) (parentFolderId : Option String)
    (st : DriveState) : GoogleDriveFolder × DriveState :=
  let folder : GoogleDriveFolder :=
    { id := freshFolderId st.nextId,
      name := folderName,
      parent := parentFolderId.getD "root",
      trashed := false }
  (folder, { folders := st.folders ++ [folder], nextId := st.nextId + 1 })

/-- The search query of `ensureFolder`: folder has the exact name, lies under the
exact parent ("root" when no parent was given), and is not trashed. -/
def folderMatches (folderName parentKey : String) (f : GoogleDriveFolder) : Bool :=
  f.name == folderName && f.parent == parentKey && !f.trashed

/-- Embeds `ensureFolder(folderName, accessToken, parentFolderId?)` from
`google-drive.ts`: search for an existing, non-trashed folder with that name under
that parent and reuse the first hit; otherwise create the folder. -/
def ensureFolder (folderName : String) (parentFolderId : Option String)
    (st : DriveState) : GoogleDriveFolder × DriveState :=
  match (st.folders.filter (folderMatches folderName (parentFolderId.getD "root"))).head? with
  | some f => (f, st)
  | none => createFolder folderName parentFolderId st

/-- Claim C5: `ensureFolder` is idempotent at the folder level — a second call with
the same name and parent, against the state the first call left, returns the same
folder id and creates nothing; and whenever a matching, non-trashed folder already
exists, the call reuses an existing folder and leaves the store unchanged. -/
theorem ensureFolder_idempotent (folderName : String) (parentFolderId : Option String)
    (st : DriveState) :
    (ensureFolder folderName parentFolderId
        (ensureFolder folderName parentFolderId st).2 =
      ensureFolder folderName parentFolderId st) ∧
    ((∃ f ∈ st.folders, folderMatches folderName (parentFolderId.getD "root") f = true) →
      (ensureFolder folderName parentFolderId st).2 = st ∧
      (ensureFolder folderName parentFolderId st).1 ∈ st.folders) := by
  constructor
  · unfold ensureFolder
    cases hsearch :
        (st.folders.filter (folderMatches folderName (parentFolderId.getD "root"))).head? with
    | some f =>
        simp [hsearch]
    | none =>
        simp only [hsearch, createFolder]
        have hnil : st.folders.filter (folderMatches folderName (parentFolderId.getD "root"))
            = [] := List.head?_eq_none_iff.1 hsearch
        have hmatch : folderMatches folderName (parentFolderId.getD "root")
            { id := freshFolderId st.nextId, name := folderName,
              parent := parentFolderId.getD "root", trashed := false } = true := by
          simp [folderMatches]
        simp [List.filter_append, hnil, hmatch]
  · intro hex
    unfold ensureFolder
    cases hsearch :
        (st.folders.filter (folderMatches folderName (parentFolderId.getD "root"))).head? with
    | some f =>
        have hf : f ∈ st.folders.filter (folderMatches folderName (parentFolderId.getD "root")) :=
          List.mem_of_mem_head? (by simp [hsearch])
        exact ⟨rfl, List.mem_of_mem_filter hf⟩
    | none =>
        obtain ⟨f, hmem, hmatch⟩ := hex
        have hnil : st.folders.filter (folderMatches folderName (parentFolderId.getD "root"))
            = [] := List.head?_eq_none_iff.1 hsearch
        have : f ∈ st.folders.filter (folderMatches folderName (parentFolderId.getD "root")) :=
          List.mem_filter.2 ⟨hmem, hmatch⟩
        rw [hnil] at this
        simp at this

/-- Witness for C5 at a concrete store: the folder "photos" under "root" already
exists, so `ensureFolder` reuses it and leaves the store unchanged. -/
theorem ensureFolder_idempotent_witness :
    (ensureFolder "photos" none
        (ensureFolder "photos" none
          { folders := [{ id := "f1", name := "photos", parent := "root", trashed := false }],
            nextId := 0 }).2 =
      ensureFolder "photos" none
        { folders := [{ id := "f1", name := "photos", parent := "root", trashed := false }],
          nextId := 0 }) ∧
    ((ensureFolder "photos" none
        { folders := [{ id := "f1", name := "photos", parent := "root", trashed := false }],
          nextId := 0 }).2 =
      { folders := [{ id := "f1", name := "photos", parent := "root", trashed := false }],
        nextId := 0 } ∧
      (ensureFolder "photos" none
        { folders := [{ id := "f1", name := "photos", parent := "root", trashed := false }],
          nextId := 0 }).1 ∈
        [({ id := "f1", name := "photos", parent := "root", trashed := false } :
          GoogleDriveFolder)]) := by
  have h := ensureFolder_idempotent "photos" none
    { folders := [{ id := "f1", name := "photos", parent := "root", trashed := false }],
      nextId := 0 }
  have h₂ := h.2 ⟨{ id := "f1", name := "photos", parent := "root", trashed := false },
    by simp, by decide⟩
  exact ⟨h.1, h₂.1, by simpa using h₂.2⟩

/-- `GoogleDriveFile` from `types.ts`, restricted to the fields the claims inspect:
the id, the display name and the optional shareable link. -/
structure GoogleDriveFile where
  id : String
  name : String
  webViewLink : Option String
deriving Repr, DecidableEq

/-- The observable behaviour of one `uploadFileWithRetry` call: the value returned
or error thrown, how many upload attempts were made, and the backoff delays (in
milliseconds) elapsed between consecutive attempts. -/
structure RetryRun where
  result : Except String GoogleDriveFile
  attemptsMade : Nat
  delaysMs : List Nat
deriving Repr

/-- The loop of `uploadFileWithRetry` from `google-drive.ts`, fuelled by the number
of remaining iterations (`maxRetries - attempt`).  Each iteration performs one
upload attempt; on failure it remembers the error and, unless this was the final
attempt, sleeps `2 ^ attempt * 1000` milliseconds; after the loop the last error is
thrown.  The post-success `makeFilePublic` call is wrapped in a `try` that swallows
its failure, so it cannot influence the returned value and is not modelled. -/
def retryGo (attemptResult : Nat → Except String GoogleDriveFile) (maxRetries : Nat) :
    Nat → Nat → Option String → List Nat → RetryRun
  | 0, attempt, lastError, delays =>
      { result := Except.error (lastError.getD "Upload failed after retries"),
        attemptsMade := attempt, delaysMs := delays }
  | remaining + 1, attempt, lastError, delays =>
      match attemptResult attempt with
      | Except.ok f =>
          { result := Except.ok f, attemptsMade := attempt + 1, delaysMs := delays }
      | Except.error e =>
          if attempt < maxRetries - 1 then
            retryGo attemptResult maxRetries remaining (attempt + 1) (some e)
              (delays ++ [2 ^ attempt * 1000])
          else
            retryGo attemptResult maxRetries remaining (attempt + 1) (some e) delays

/-- Embeds `uploadFileWithRetry(...)` from `google-drive.ts` (default
`maxRetries = 3` at every call site).  `attemptResult n` is the outcome the
`n`-th (0-based) `uploadFile` call would produce. -/
def uploadFileWithRetry (attemptResult : Nat → Except String GoogleDriveFile)
    (maxRetries : Nat) : RetryRun :=
  retryGo attemptResult maxRetries maxRetries 0 none []

/-- `UploadResult` from `types.ts`. -/
structure UploadResult where
  success : Bool
  file : Option GoogleDriveFile
  error : Option String
  localPath : List String
deriving Repr, DecidableEq

/-- One transfer unit of the batch together with the outcomes its upload attempts
would produce on the wire. -/
structure TransferRun where
  unit : FileMetadata
  attemptResult : Nat → Except String GoogleDriveFile

/-- The per-unit body of the upload loop in `handleUpload` (`upload-file.tsx`): run
`uploadFileWithRetry` and record a success or failure `UploadResult` for the unit;
the catch clause stores the thrown error's message. -/
def recordOutcome (t : TransferRun) : UploadResult :=
  match (uploadFileWithRetry t.attemptResult 3).result with
  | Except.ok f =>
      { success := true, file := some f, error := none, localPath := t.unit.path }
  | Except.error e =>
      { success := false, file := none, error := some e, localPath := t.unit.path }

/-- The upload loop of `handleUpload`: every unit is processed in order, each
outcome collected independently. -/
def uploadAll (units : List TransferRun) : List UploadResult :=
  units.map recordOutcome

/-- A recorded outcome is successful exactly when the unit's retry run returned a
file rather than throwing. -/
theorem recordOutcome_success (t : TransferRun) :
    (recordOutcome t).success = (uploadFileWithRetry t.attemptResult 3).result.isOk := by
  unfold recordOutcome
  cases (uploadFileWithRetry t.attemptResult 3).result <;> simp [Except.isOk, Except.toBool]

/-- Claim C7: a unit whose attempts keep failing gets exactly 3 attempts with
backoff delays of 1000 ms and 2000 ms between consecutive attempts and surfaces
the last error; a unit failing on attempts 1 and 2 and succeeding on attempt 3
yields a success with exactly those two delays elapsed. -/
theorem uploadFileWithRetry_backoff :
    (∀ attemptResult e₀ e₁ e₂,
      attemptResult 0 = Except.error e₀ → attemptResult 1 = Except.error e₁ →
      attemptResult 2 = Except.error e₂ →
      uploadFileWithRetry attemptResult 3 =
        { result := Except.error e₂, attemptsMade := 3, delaysMs := [1000, 2000] }) ∧
    (∀ attemptResult e₀ e₁ f,
      attemptResult 0 = Except.error e₀ → attemptResult 1 = Except.error e₁ →
      attemptResult 2 = Except.ok f →
      uploadFileWithRetry attemptResult 3 =
        { result := Except.ok f, attemptsMade := 3, delaysMs := [1000, 2000] }) := by
  constructor
  · intro attemptResult e₀ e₁ e₂ h₀ h₁ h₂
    simp [uploadFileWithRetry, retryGo, h₀, h₁, h₂]
  · intro attemptResult e₀ e₁ f h₀ h₁ h₂
    simp [uploadFileWithRetry, retryGo, h₀, h₁, h₂]

/-- Witness for C7: an always-failing unit makes 3 attempts with delays 1000 and
2000 ms; a fail-fail-succeed unit succeeds with the same two delays. -/
theorem uploadFileWithRetry_backoff_witness :
    uploadFileWithRetry (fun _ => Except.error "boom") 3 =
      { result := Except.error "boom", attemptsMade := 3, delaysMs := [1000, 2000] } ∧
    uploadFileWithRetry
        (fun n => if n < 2 then Except.error "transient"
          else Except.ok { id := "f9", name := "x.jpg", webViewLink := none }) 3 =
      { result := Except.ok { id := "f9", name := "x.jpg", webViewLink := none },
        attemptsMade := 3, delaysMs := [1000, 2000] } :=
  ⟨uploadFileWithRetry_backoff.1 (fun _ => Except.error "boom") "boom" "boom" "boom"
      rfl rfl rfl,
    uploadFileWithRetry_backoff.2
      (fun n => if n < 2 then Except.error "transient"
        else Except.ok { id := "f9", name := "x.jpg", webViewLink := none })
      "transient" "transient" { id := "f9", name := "x.jpg", webViewLink := none }
      rfl rfl rfl⟩

/-- Claim C8: for a batch of `N` units of which `K` exhaust their retries, the
upload loop yields exactly `N` outcomes — `K` failed, `N − K` succeeded — the
`i`-th outcome is determined by the `i`-th unit alone (so no failure position can
prevent a later unit from being attempted), and a failed outcome carries that
unit's last error. -/
theorem uploadAll_counts (units : List TransferRun) (K : Nat)
    (hK : K = units.countP
      (fun t => !(uploadFileWithRetry t.attemptResult 3).result.isOk))
    (hKN : K < units.length) :
    (uploadAll units).length = units.length ∧
    (uploadAll units).countP (fun r => !r.success) = K ∧
    (uploadAll units).countP (fun r => r.success) = units.length - K ∧
    (∀ i (h : i < units.length),
      (uploadAll units).get ⟨i, by simpa [uploadAll] using h⟩ =
        recordOutcome (units.get ⟨i, h⟩)) ∧
    (∀ t ∈ units, ∀ e, (uploadFileWithRetry t.attemptResult 3).result = Except.error e →
      recordOutcome t =
        { success := false, file := none, error := some e, localPath := t.unit.path }) := by
  have hfail : (uploadAll units).countP (fun r => !r.success) = K := by
    rw [hK]
    unfold uploadAll
    rw [List.countP_map]
    apply List.countP_congr
    intro t _
    simp [Function.comp, recordOutcome_success]
  have hlen : (uploadAll units).length = units.length := by simp [uploadAll]
  refine ⟨hlen, hfail, ?_, ?_, ?_⟩
  · have htotal := List.length_eq_countP_add_countP (fun r => r.success) (uploadAll units)
    have hconv : (uploadAll units).countP (fun a => decide ¬a.success = true) =
        (uploadAll units).countP (fun r => !r.success) := by
      apply List.countP_congr
      intro r _
      by_cases h : r.success <;> simp [h]
    omega
  · intro i h
    simp [uploadAll, List.get_eq_getElem]
  · intro t _ e he
    unfold recordOutcome
    rw [he]

/-- Witness for C8: a batch of two units, the second always failing, yields two
outcomes with one failure and one success. -/
theorem uploadAll_counts_witness :
    (uploadAll
        [{ unit := { path := ["a", "f1"], name := "f1", relativePath := none },
           attemptResult := fun _ =>
             Except.ok { id := "d1", name := "f1", webViewLink := none } },
         { unit := { path := ["a", "f2"], name := "f2", relativePath := none },
           attemptResult := fun _ => Except.error "boom" }]).length = 2 ∧
    (uploadAll
        [{ unit := { path := ["a", "f1"], name := "f1", relativePath := none },
           attemptResult := fun _ =>
             Except.ok { id := "d1", name := "f1", webViewLink := none } },
         { unit := { path := ["a", "f2"], name := "f2", relativePath := none },
           attemptResult := fun _ => Except.error "boom" }]).countP
      (fun r => !r.success) = 1 ∧
    (uploadAll
        [{ unit := { path := ["a", "f1"], name := "f1", relativePath := none },
           attemptResult := fun _ =>
             Except.ok { id := "d1", name := "f1", webViewLink := none } },
         { unit := { path := ["a", "f2"], name := "f2", relativePath := none },
           attemptResult := fun _ => Except.error "boom" }]).countP
      (fun r => r.success) = 1 := by
  have h := uploadAll_counts
    [{ unit := { path := ["a", "f1"], name := "f1", relativePath := none },
       attemptResult := fun _ =>
         Except.ok { id := "d1", name := "f1", webViewLink := none } },
     { unit := { path := ["a", "f2"], name := "f2", relativePath := none },
       attemptResult := fun _ => Except.error "boom" }] 1 (by rfl) (by simp)
  exact ⟨h.1, h.2.1, by simpa using h.2.2.1⟩

/-- Counterexample to claim C1: a unit whose upload keeps failing with
"AUTHENTICATION_EXPIRED" is retried like any other failure — `uploadFileWithRetry`
makes 3 attempts (not exactly one) with both backoff delays — and the batch loop
records it as an ordinary per-unit failure and still attempts the next unit. -/
theorem authExpired_not_special_counterexample :
    (uploadFileWithRetry (fun _ => Except.error "AUTHENTICATION_EXPIRED") 3).attemptsMade
        = 3 ∧
    ¬((uploadFileWithRetry (fun _ => Except.error "AUTHENTICATION_EXPIRED") 3).attemptsMade
        = 1) ∧
    (uploadFileWithRetry (fun _ => Except.error "AUTHENTICATION_EXPIRED") 3).delaysMs
        = [1000, 2000] ∧
    uploadAll
        [{ unit := { path := ["a", "f1"], name := "f1", relativePath := none },
           attemptResult := fun _ => Except.error "AUTHENTICATION_EXPIRED" },
         { unit := { path := ["a", "f2"], name := "f2", relativePath := none },
           attemptResult := fun _ =>
             Except.ok { id := "d2", name := "f2", webViewLink := none } }] =
      [{ success := false, file := none, error := some "AUTHENTICATION_EXPIRED",
         localPath := ["a", "f1"] },
       { success := true, file := some { id := "d2", name := "f2", webViewLink := none },
         error := none, localPath := ["a", "f2"] }] := by
  refine ⟨rfl, by decide, rfl, ?_⟩
  rfl

/-- Claim C1 as amended: the engine does not special-case AuthExpired — a unit all
of whose upload attempts fail with "AUTHENTICATION_EXPIRED" goes through the full
retry schedule (3 attempts, backoff delays of 1000 ms and 2000 ms), and the batch
loop records the exhausted failure as an ordinary per-unit failure while every
unit before and after it is still processed. -/
theorem authExpired_ordinary_failure (pre post : List TransferRun) (t : TransferRun)
    (h : ∀ n, t.attemptResult n = Except.error "AUTHENTICATION_EXPIRED") :
    uploadFileWithRetry t.attemptResult 3 =
      { result := Except.error "AUTHENTICATION_EXPIRED", attemptsMade := 3,
        delaysMs := [1000, 2000] } ∧
    uploadAll (pre ++ t :: post) =
      uploadAll pre ++
        { success := false, file := none, error := some "AUTHENTICATION_EXPIRED",
          localPath := t.unit.path } :: uploadAll post := by
  have hrun : uploadFileWithRetry t.attemptResult 3 =
      { result := Except.error "AUTHENTICATION_EXPIRED", attemptsMade := 3,
        delaysMs := [1000, 2000] } := by
    simp [uploadFileWithRetry, retryGo, h]
  refine ⟨hrun, ?_⟩
  have hrec : recordOutcome t =
      { success := false, file := none, error := some "AUTHENTICATION_EXPIRED",
        localPath := t.unit.path } := by
    unfold recordOutcome
    rw [hrun]
  simp [uploadAll, hrec]

/-- Witness for the amended C1: a concrete AuthExpired unit between two successful
units is retried three times and recorded as an ordinary failure. -/
theorem authExpired_ordinary_failure_witness :
    uploadFileWithRetry (fun _ => Except.error "AUTHENTICATION_EXPIRED") 3 =
      { result := Except.error "AUTHENTICATION_EXPIRED", attemptsMade := 3,
        delaysMs := [1000, 2000] } ∧
    uploadAll
        ([{ unit := { path := ["a", "f0"], name := "f0", relativePath := none },
            attemptResult := fun _ =>
              Except.ok { id := "d0", name := "f0", webViewLink := none } }] ++
          { unit := { path := ["a", "f1"], name := "f1", relativePath := none },
            attemptResult := fun _ => Except.error "AUTHENTICATION_EXPIRED" } ::
          [{ unit := { path := ["a", "f2"], name := "f2", relativePath := none },
             attemptResult := fun _ =>
               Except.ok { id := "d2", name := "f2", webViewLink := none } }]) =
      uploadAll
          [{ unit := { path := ["a", "f0"], name := "f0", relativePath := none },
             attemptResult := fun _ =>
               Except.ok { id := "d0", name := "f0", webViewLink := none } }] ++
        { success := false, file := none, error := some "AUTHENTICATION_EXPIRED",
          localPath := ["a", "f1"] } ::
        uploadAll
          [{ unit := { path := ["a", "f2"], name := "f2", relativePath := none },
             attemptResult := fun _ =>
               Except.ok { id := "d2", name := "f2", webViewLink := none } }] :=
  authExpired_ordinary_failure
    [{ unit := { path := ["a", "f0"], name := "f0", relativePath := none },
       attemptResult := fun _ =>
         Except.ok { id := "d0", name := "f0", webViewLink := none } }]
    [{ unit := { path := ["a", "f2"], name := "f2", relativePath := none },
       attemptResult := fun _ =>
         Except.ok { id := "d2", name := "f2", webViewLink := none } }]
    { unit := { path := ["a", "f1"], name := "f1", relativePath := none },
      attemptResult := fun _ => Except.error "AUTHENTICATION_EXPIRED" }
    (fun _ => rfl)

/-- `successful` in the result block of `handleUpload`: the number of successful
outcomes. -/
def successCount (results : List UploadResult) : Nat :=
  (results.filter (fun r => r.success)).length

/-- `failed` in the result block of `handleUpload`: the number of failed
outcomes. -/
def failedCount (results : List UploadResult) : Nat :=
  (results.filter (fun r => !r.success)).length

/-- `results[0].file?.webViewLink` in `handleUpload`: the first outcome's file
link, when the outcome, its file and the link all exist. -/
def firstFileLink (results : List UploadResult) : Option String :=
  match results.head? with
  | some r =>
      match r.file with
      | some f => f.webViewLink
      | none => none
  | none => none

/-- JavaScript truthiness of the chained check
`results[0].file?.webViewLink && results[0].file.webViewLink.trim()`: the link
exists, is nonempty, and stays nonempty after trimming. -/
def linkTruthy : Option String → Bool
  | some l => l != "" && jsTrim l != ""
  | none => false

/-- The folder URL `handleUpload` builds for the destination folder. -/
def folderUrl (folderId : String) : String :=
  "https://drive.google.com/drive/folders/" ++ folderId

/-- Embeds the link-surfacing block of `handleUpload` (`upload-file.tsx`): the
block runs only in the `failed === 0` arm; there, with exactly one successful
upload carrying a usable link, that link is copied; otherwise, for a real
destination folder (`folderId` neither "root" nor empty), the folder URL is
copied; otherwise no link is surfaced.  With any failure no link is copied. -/
def chosenLink (results : List UploadResult) (folderId : String) : Option String :=
  if failedCount results = 0 then
    if successCount results = 1 ∧ linkTruthy (firstFileLink results) = true then
      firstFileLink results
    else if folderId ≠ "root" ∧ folderId ≠ "" then some (folderUrl folderId)
    else none
  else none

/-- No outcome failed exactly when every outcome succeeded. -/
theorem failedCount_eq_zero (results : List UploadResult) :
    failedCount results = 0 ↔ ∀ r ∈ results, r.success = true := by
  unfold failedCount
  rw [List.length_eq_zero, List.filter_eq_nil_iff]
  constructor
  · intro h r hr
    have := h r hr
    simpa using this
  · intro h r hr
    simp [h r hr]

/-- When every outcome succeeded, the success count is the batch size. -/
theorem successCount_of_all (results : List UploadResult)
    (h : ∀ r ∈ results, r.success = true) : successCount results = results.length := by
  unfold successCount
  rw [List.filter_eq_self.2 (fun r hr => by simp [h r hr])]

/-- Counterexample to claim C3: a batch of 5 outcomes under real folder "F" with 4
successes and 1 failure surfaces no link at all — not folder F's link — because
the link block only runs when every unit succeeded. -/
theorem chosenLink_partial_failure_counterexample :
    chosenLink
        [{ success := true,
           file := some { id := "d1", name := "a1", webViewLink := some "https://l1" },
           error := none, localPath := ["a", "a1"] },
         { success := true,
           file := some { id := "d2", name := "a2", webViewLink := some "https://l2" },
           error := none, localPath := ["a", "a2"] },
         { success := true,
           file := some { id := "d3", name := "a3", webViewLink := some "https://l3" },
           error := none, localPath := ["a", "a3"] },
         { success := true,
           file := some { id := "d4", name := "a4", webViewLink := some "https://l4" },
           error := none, localPath := ["a", "a4"] },
         { success := false, file := none, error := some "boom",
           localPath := ["a", "a5"] }] "F" = none ∧
    ¬(chosenLink
        [{ success := true,
           file := some { id := "d1", name := "a1", webViewLink := some "https://l1" },
           error := none, localPath := ["a", "a1"] },
         { success := true,
           file := some { id := "d2", name := "a2", webViewLink := some "https://l2" },
           error := none, localPath := ["a", "a2"] },
         { success := true,
           file := some { id := "d3", name := "a3", webViewLink := some "https://l3" },
           error := none, localPath := ["a", "a3"] },
         { success := true,
           file := some { id := "d4", name := "a4", webViewLink := some "https://l4" },
           error := none, localPath := ["a", "a4"] },
         { success := false, file := none, error := some "boom",
           localPath := ["a", "a5"] }] "F" = some (folderUrl "F")) := by
  constructor
  · rfl
  · intro h
    simp [chosenLink, failedCount] at h

/-- Claim C3 as amended: a link is surfaced only when every unit succeeded — then
a singleton batch with a usable file link surfaces that file's link, otherwise a
real destination folder (not the implicit root) surfaces the folder's link, and
otherwise nothing; any per-unit failure surfaces no link at all. -/
theorem chosenLink_policy (results : List UploadResult) (folderId : String) :
    ((∃ r ∈ results, r.success = false) → chosenLink results folderId = none) ∧
    ((∀ r ∈ results, r.success = true) →
      ((results.length = 1 ∧ linkTruthy (firstFileLink results) = true →
          chosenLink results folderId = firstFileLink results) ∧
        (¬(successCount results = 1 ∧ linkTruthy (firstFileLink results) = true) →
          folderId ≠ "root" → folderId ≠ "" →
          chosenLink results folderId = some (folderUrl folderId)) ∧
        (¬(successCount results = 1 ∧ linkTruthy (firstFileLink results) = true) →
          (folderId = "root" ∨ folderId = "") →
          chosenLink results folderId = none))) := by
  constructor
  · intro ⟨r, hr, hfail⟩
    have hne : failedCount results ≠ 0 := by
      intro h0
      have := (failedCount_eq_zero results).1 h0 r hr
      rw [hfail] at this
      exact Bool.false_ne_true this
    simp [chosenLink, hne]
  · intro hall
    have h0 : failedCount results = 0 := (failedCount_eq_zero results).2 hall
    refine ⟨?_, ?_, ?_⟩
    · intro ⟨hlen, hlink⟩
      have hsc : successCount results = 1 := by
        rw [successCount_of_all results hall, hlen]
      simp [chosenLink, h0, hsc, hlink]
    · intro hnot hroot hempty
      simp [chosenLink, h0, hnot, hroot, hempty]
    · intro hnot hor
      rcases hor with h | h <;> simp [chosenLink, h0, hnot, h]

/-- Witness for the amended C3: a singleton successful batch surfaces the file's
link, and an all-successful batch of two under folder "F" surfaces F's URL. -/
theorem chosenLink_policy_witness :
    chosenLink
        [{ success := true,
           file := some { id := "d1", name := "a1", webViewLink := some "https://l1" },
           error := none, localPath := ["a", "a1"] }] "root" = some "https://l1" ∧
    chosenLink
        [{ success := true,
           file := some { id := "d1", name := "a1", webViewLink := some "https://l1" },
           error := none, localPath := ["a", "a1"] },
         { success := true,
           file := some { id := "d2", name := "a2", webViewLink := some "https://l2" },
           error := none, localPath := ["a", "a2"] }] "F" = some (folderUrl "F") := by
  constructor
  · have h := (chosenLink_policy
      [{ success := true,
         file := some { id := "d1", name := "a1", webViewLink := some "https://l1" },
         error := none, localPath := ["a", "a1"] }] "root").2
      (by intro r hr; simp at hr; rw [hr]) |>.1 ⟨rfl, by decide⟩
    simpa [firstFileLink] using h
  · exact (chosenLink_policy
      [{ success := true,
         file := some { id := "d1", name := "a1", webViewLink := some "https://l1" },
         error := none, localPath := ["a", "a1"] },
       { success := true,
         file := some { id := "d2", name := "a2", webViewLink := some "https://l2" },
         error := none, localPath := ["a", "a2"] }] "F").2
      (by intro r hr; simp at hr; rcases hr with h | h <;> rw [h])
      |>.2.1 (by intro ⟨h1, _⟩; simp [successCount] at h1) (by decide) (by decide)

/-- `OAuth.TokenResponse` as the refresh flow uses it: the new access token and an
optional rotated refresh token. -/
structure OAuthTokenResponse where
  access_token : String
  refresh_token : Option String
deriving Repr, DecidableEq

/-- The response of the OAuth token endpoint to a refresh request: either the
parsed token response of an ok reply, or a non-ok reply whose body's JSON `error`
member is the given field (`none` when the body does not parse as JSON). -/
inductive RefreshHttpResult where
  | success (tokens : OAuthTokenResponse)
  | httpError (errorField : Option String)
deriving Repr, DecidableEq

/-- Embeds `refreshTokens(refreshToken)` from the auth module: a non-ok reply whose
parsed `error` field is "invalid_grant" or "invalid_token" throws the message
"Authentication expired. Please re-authenticate your account."; any other non-ok
reply throws "Failed to refresh access token. Please re-authenticate your
account."; an ok reply keeps the previous refresh token when none was rotated. -/
def refreshTokens (refreshToken : String) (resp : RefreshHttpResult) :
    Except String OAuthTokenResponse :=
  match resp with
  | RefreshHttpResult.success t =>
      Except.ok { t with refresh_token := some (t.refresh_token.getD refreshToken) }
  | RefreshHttpResult.httpError errorField =>
      if errorField = some "invalid_grant" ∨ errorField = some "invalid_token" then
        Except.error "Authentication expired. Please re-authenticate your account."
      else
        Except.error "Failed to refresh access token. Please re-authenticate your account."

/-- The cached token set of the OAuth client (`client.getTokens()`): the cached
access token ("" when blank), the stored refresh token, and whether the cached
access token is expired. -/
structure TokenSetM where
  accessToken : String
  refreshToken : Option String
  expired : Bool
deriving Repr, DecidableEq

/-- JavaScript truthiness of `tokenSet.refreshToken`. -/
def refreshTokenPresent (ts : TokenSetM) : Bool :=
  match ts.refreshToken with
  | some r => r != ""
  | none => false

/-- Embeds `getValidAccessToken(account)` from the auth module.  `tokenSet` is what
`client.getTokens()` returns and `resp` the token endpoint's reply to the refresh
request the function would make.  The catch clause inspects the caught error's
message with `includes("invalid_grant")` / `includes("invalid_token")` and maps a
hit to AUTHENTICATION_EXPIRED, rethrowing anything else. -/
def getValidAccessToken (tokenSet : Option TokenSetM) (resp : RefreshHttpResult) :
    Except String String :=
  match tokenSet with
  | some ts =>
      if ts.accessToken ≠ "" then
        if refreshTokenPresent ts = true ∧ ts.expired = true then
          match refreshTokens (ts.refreshToken.getD "") resp with
          | Except.ok refreshed => Except.ok refreshed.access_token
          | Except.error msg =>
              if strIncludes msg "invalid_grant" || strIncludes msg "invalid_token" then
                Except.error "AUTHENTICATION_EXPIRED"
              else Except.error msg
        else Except.ok ts.accessToken
      else Except.error "AUTHENTICATION_EXPIRED"
  | none => Except.error "AUTHENTICATION_EXPIRED"

/-- Claim C2 names a code bug: when the provider rejects the refresh credential as
`invalid_grant` (or `invalid_token`), `refreshTokens` has already rewritten the
error message to "Authentication expired. Please re-authenticate your account.",
which contains neither "invalid_grant" nor "invalid_token" — so the remapping in
`getValidAccessToken` never fires and the caller does not receive
AUTHENTICATION_EXPIRED in exactly the case the spec requires it.  The no-cached-
token case does fail with AUTHENTICATION_EXPIRED as specified, and other refresh
failures propagate with a distinct message. -/
theorem getValidAccessToken_invalid_grant_bug :
    getValidAccessToken
        (some { accessToken := "cached", refreshToken := some "rt", expired := true })
        (RefreshHttpResult.httpError (some "invalid_grant")) =
      Except.error "Authentication expired. Please re-authenticate your account." ∧
    ("Authentication expired. Please re-authenticate your account." : String) ≠
      "AUTHENTICATION_EXPIRED" ∧
    strIncludes "Authentication expired. Please re-authenticate your account."
        "invalid_grant" = false ∧
    strIncludes "Authentication expired. Please re-authenticate your account."
        "invalid_token" = false ∧
    getValidAccessToken none (RefreshHttpResult.httpError (some "invalid_grant")) =
      Except.error "AUTHENTICATION_EXPIRED" ∧
    getValidAccessToken
        (some { accessToken := "cached", refreshToken := some "rt", expired := true })
        (RefreshHttpResult.httpError (some "server_error")) =
      Except.error "Failed to refresh access token. Please re-authenticate your account." := by
  refine ⟨rfl, by decide, by decide, by decide, rfl, rfl⟩

/-- `GoogleAccount` from `types.ts`. -/
structure GoogleAccount where
  id : String
  email : String
  name : Option String
  accessToken : String
  providerId : String
deriving Repr, DecidableEq

/-- `StoredAccounts` from `types.ts`: the stored account list and the optional
default account id — a single optional designation, so at most one account can be
flagged default. -/
structure StoredAccounts where
  accounts : List GoogleAccount
  defaultAccountId : Option String
deriving Repr, DecidableEq

/-- Embeds `removeAccount(accountId)` from the auth module: drop the account with
that id; if it was the default, promote the first remaining account (or clear the
default when none remain). -/
def removeAccount (accountId : String) (stored : StoredAccounts) : StoredAccounts :=
  let accounts := stored.accounts.filter (fun a => a.id ≠ accountId)
  { accounts := accounts,
    defaultAccountId :=
      if stored.defaultAccountId = some accountId then
        match accounts with
        | [] => none
        | a :: _ => some a.id
      else stored.defaultAccountId }

/-- Claim C9: `removeAccount` removes exactly the account with the given id;
removing the default promotes the first remaining account in storage order (or
clears the default when the store empties); removing a non-default account leaves
the default designation unchanged. -/
theorem removeAccount_spec (accountId : String) (stored : StoredAccounts) :
    (∀ a, a ∈ (removeAccount accountId stored).accounts ↔
      a ∈ stored.accounts ∧ a.id ≠ accountId) ∧
    (stored.defaultAccountId = some accountId →
      (removeAccount accountId stored).defaultAccountId =
        (removeAccount accountId stored).accounts.head?.map (fun a => a.id)) ∧
    (stored.defaultAccountId ≠ some accountId →
      (removeAccount accountId stored).defaultAccountId = stored.defaultAccountId) ∧
    ((removeAccount accountId stored).accounts = [] →
      stored.defaultAccountId = some accountId →
      (removeAccount accountId stored).defaultAccountId = none) := by
  have hpromote : stored.defaultAccountId = some accountId →
      (removeAccount accountId stored).defaultAccountId =
        (removeAccount accountId stored).accounts.head?.map (fun a => a.id) := by
    intro hdef
    simp only [removeAccount, hdef, if_pos rfl]
    cases stored.accounts.filter (fun a => a.id ≠ accountId) with
    | nil => rfl
    | cons a rest => rfl
  refine ⟨?_, hpromote, ?_, ?_⟩
  · intro a
    simp [removeAccount, List.mem_filter]
  · intro hdef
    simp [removeAccount, hdef]
  · intro hempty hdef
    rw [hpromote hdef, hempty]
    rfl

/-- Witness for C9 on the spec's scenario: with accounts A (default) and B,
removing A promotes B; removing B afterwards clears the default. -/
theorem removeAccount_spec_witness :
    (removeAccount "A"
        { accounts :=
            [{ id := "A", email := "a@x", name := none, accessToken := "t1",
               providerId := "p1" },
             { id := "B", email := "b@x", name := none, accessToken := "t2",
               providerId := "p2" }],
          defaultAccountId := some "A" }).defaultAccountId = some "B" ∧
    (removeAccount "B"
        (removeAccount "A"
          { accounts :=
              [{ id := "A", email := "a@x", name := none, accessToken := "t1",
                 providerId := "p1" },
               { id := "B", email := "b@x", name := none, accessToken := "t2",
                 providerId := "p2" }],
            defaultAccountId := some "A" })).defaultAccountId = none := by
  have h1 := (removeAccount_spec "A"
    { accounts :=
        [{ id := "A", email := "a@x", name := none, accessToken := "t1",
           providerId := "p1" },
         { id := "B", email := "b@x", name := none, accessToken := "t2",
           providerId := "p2" }],
      defaultAccountId := some "A" }).2.1 rfl
  have h2 := (removeAccount_spec "B"
    (removeAccount "A"
      { accounts :=
          [{ id := "A", email := "a@x", name := none, accessToken := "t1",
             providerId := "p1" },
           { id := "B", email := "b@x", name := none, accessToken := "t2",
             providerId := "p2" }],
        defaultAccountId := some "A" })).2.1 (by rw [h1]; decide)
  constructor
  · rw [h1]
    decide
  · rw [h2]
    decide

/-- The `structure.has`-guarded `structure.set(currentPath, [])` of
`extractFolderStructure`: record a key once, keeping insertion order. -/
def insertKey (ks : List (List String)) (k : List String) : List (List String) :=
  if k ∈ ks then ks else ks ++ [k]

/-- The inner loop of `extractFolderStructure` (`file-utils.ts`), which walks
`i = 0 .. n-1` growing `currentPath` segment by segment and records every prefix
`dir.take (i+1)` of the directory path. -/
def addPrefixesAux (ks : List (List String)) (dir : List String) : Nat → List (List String)
  | 0 => ks
  | n + 1 => insertKey (addPrefixesAux ks dir n) (dir.take (n + 1))

/-- All `dir.length` prefixes of `dir` recorded into the key set. -/
def addPrefixes (ks : List (List String)) (dir : List String) : List (List String) :=
  addPrefixesAux ks dir dir.length

/-- The per-file body of `extractFolderStructure`: files without a relative path,
or whose relative path's directory part is "." (here `[]`), contribute nothing;
otherwise every prefix of the directory part is recorded. -/
def extractStep (acc : List (List String)) (f : FileMetadata) : List (List String) :=
  match f.relativePath with
  | none => acc
  | some rp => if rp.dropLast = [] then acc else addPrefixes acc rp.dropLast

/-- Embeds `extractFolderStructure(files)` from `file-utils.ts`: the key set of the
returned map, in insertion order. -/
def extractFolderStructure (files : List FileMetadata) : List (List String) :=
  files.foldl extractStep []

/-- The comparator of `handleUpload`'s folder sort: depth (segment count) in
ascending order. -/
def depthLe (a b : List String) : Prop :=
  a.length ≤ b.length

instance : DecidableRel depthLe :=
  fun a b => Nat.decLe a.length b.length

instance : IsTotal (List String) depthLe :=
  ⟨fun a b => Nat.le_total a.length b.length⟩

instance : IsTrans (List String) depthLe :=
  ⟨fun _ _ _ hab hbc => Nat.le_trans hab hbc⟩

/-- Embeds `sortedFolders = Array.from(folderStructure.keys()).sort((a, b) =>
aDepth - bDepth)` in `handleUpload`: a stable sort of the key set by depth
ascending (JavaScript's `Array.prototype.sort` is stable). -/
def sortFoldersByDepth (ks : List (List String)) : List (List String) :=
  List.insertionSort depthLe ks

/-- `folderIdMap.get(path)` on the association-list model of the map. -/
def indexGet (m : List (List String × String)) (k : List String) : Option String :=
  (m.find? (fun e => e.1 == k)).map (fun e => e.2)

/-- `folderIdMap.set(path, id)`: replace in place when the key exists, append
otherwise (JavaScript `Map` insertion-order semantics). -/
def indexSet (m : List (List String × String)) (k : List String) (v : String) :
    List (List String × String) :=
  if m.any (fun e => e.1 == k) then
    m.map (fun e => if e.1 == k then (k, v) else e)
  else m ++ [(k, v)]

/-- The key set of the folder-path index. -/
def indexKeys (m : List (List String × String)) : List (List String) :=
  m.map (fun e => e.1)

/-- The state of the hierarchy-construction loop: the folder-path index built so
far and the remote folder store. -/
structure HierAcc where
  index : List (List String × String)
  drive : DriveState

/-- The initial `folderIdMap` of `handleUpload`: "." (here `[]`) maps to the chosen
destination when it is a real folder; nothing is mapped when uploading to root. -/
def initHierAcc (folderId : String) (st : DriveState) : HierAcc :=
  { index := if folderId ≠ "root" then [([], folderId)] else [], drive := st }

/-- One iteration of `handleUpload`'s folder-structure loop: split the last
segment off the path, look the parent up in the index built so far ("." for
top-level paths), `ensureFolder` the folder, and record its id under the path. -/
def createFolderStep (acc : HierAcc) (folderPath : List String) : HierAcc :=
  let folderNamePart := folderPath.getLastD ""
  let parentPath := folderPath.dropLast
  let parentId := indexGet acc.index parentPath
  let created := ensureFolder folderNamePart parentId acc.drive
  { index := indexSet acc.index folderPath created.1.id, drive := created.2 }

/-- The folder-structure loop of `handleUpload` over the depth-sorted paths. -/
def createFolderStructure (sortedFolders : List (List String)) (acc : HierAcc) : HierAcc :=
  sortedFolders.foldl createFolderStep acc

/-- Membership after `insertKey`: the old keys plus the inserted one. -/
theorem insertKey_mem (ks : List (List String)) (k k' : List String) :
    k' ∈ insertKey ks k ↔ k' ∈ ks ∨ k' = k := by
  unfold insertKey
  by_cases h : k ∈ ks
  · rw [if_pos h]
    constructor
    · exact Or.inl
    · intro h'
      rcases h' with h' | h'
      · exact h'
      · rw [h']
        exact h
  · rw [if_neg h]
    simp

/-- `addPrefixesAux` only adds keys. -/
theorem addPrefixesAux_sub (ks : List (List String)) (dir : List String) (n : Nat)
    (k : List String) (hk : k ∈ ks) : k ∈ addPrefixesAux ks dir n := by
  induction n with
  | zero => exact hk
  | succ m ih => exact (insertKey_mem _ _ _).2 (Or.inl ih)

/-- After `n` loop iterations, every prefix `dir.take (i+1)` with `i < n` has been
recorded. -/
theorem addPrefixesAux_take (ks : List (List String)) (dir : List String) (n : Nat) :
    ∀ i < n, dir.take (i + 1) ∈ addPrefixesAux ks dir n := by
  induction n with
  | zero =>
      intro i hi
      exact absurd hi (Nat.not_lt_zero i)
  | succ m ih =>
      intro i hi
      rcases Nat.lt_succ_iff_lt_or_eq.1 hi with h | h
      · exact (insertKey_mem _ _ _).2 (Or.inl (ih i h))
      · rw [h]
        exact (insertKey_mem _ _ _).2 (Or.inr rfl)

/-- `extractStep` only adds keys. -/
theorem extractStep_sub (acc : List (List String)) (f : FileMetadata)
    (k : List String) (hk : k ∈ acc) : k ∈ extractStep acc f := by
  cases hrel : f.relativePath with
  | none => simpa [extractStep, hrel] using hk
  | some rp =>
      by_cases h : rp.dropLast = []
      · simpa [extractStep, hrel, h] using hk
      · simp only [extractStep, hrel, if_neg h]
        unfold addPrefixes
        exact addPrefixesAux_sub acc rp.dropLast rp.dropLast.length k hk

/-- The fold of `extractFolderStructure` only adds keys. -/
theorem extractFold_sub (files : List FileMetadata) (acc : List (List String))
    (k : List String) (hk : k ∈ acc) : k ∈ files.foldl extractStep acc := by
  induction files generalizing acc with
  | nil => exact hk
  | cons f rest ih => exact ih (extractStep acc f) (extractStep_sub acc f k hk)

/-- Every prefix of the directory part of any unit's relative path is a key of
`extractFolderStructure`. -/
theorem extractFolderStructure_mem (files : List FileMetadata) (acc : List (List String))
    (f : FileMetadata) (hf : f ∈ files) (rp : List String)
    (hrp : f.relativePath = some rp) (i : Nat) (hi : i < rp.dropLast.length) :
    rp.dropLast.take (i + 1) ∈ files.foldl extractStep acc := by
  induction files generalizing acc with
  | nil => exact absurd hf (List.not_mem_nil f)
  | cons g rest ih =>
      rcases List.mem_cons.1 hf with h | h
      · subst h
        rw [List.foldl_cons]
        apply extractFold_sub
        have hne : rp.dropLast ≠ [] := by
          intro h0
          rw [h0] at hi
          exact absurd hi (Nat.not_lt_zero i)
        simp only [extractStep, hrp, if_neg hne]
        unfold addPrefixes
        exact addPrefixesAux_take acc rp.dropLast rp.dropLast.length i hi
      · exact ih (extractStep acc g) h

/-- Closure of a key set: every key is nonempty and its parent (the key without
its last segment) is either "." or itself a key. -/
def ClosedKeys (ks : List (List String)) : Prop :=
  ∀ k ∈ ks, k ≠ [] ∧ (k.dropLast = [] ∨ k.dropLast ∈ ks)

/-- Dropping the last segment of the `(n+1)`-segment prefix gives the `n`-segment
prefix. -/
theorem take_succ_dropLast (dir : List String) (n : Nat) (h : n + 1 ≤ dir.length) :
    (dir.take (n + 1)).dropLast = dir.take n := by
  rw [List.dropLast_eq_take, List.take_take, List.length_take]
  congr 1
  omega

/-- The prefix-insertion loop preserves closure of the key set. -/
theorem addPrefixesAux_closed (ks : List (List String)) (dir : List String) (n : Nat)
    (hn : n ≤ dir.length) (hdir : dir ≠ []) (hks : ClosedKeys ks) :
    ClosedKeys (addPrefixesAux ks dir n) := by
  induction n with
  | zero => exact hks
  | succ m ih =>
      have ihc : ClosedKeys (addPrefixesAux ks dir m) := ih (Nat.le_of_succ_le hn)
      intro k hk
      rcases (insertKey_mem _ _ _).1 hk with h | h
      · obtain ⟨hne, hpar⟩ := ihc k h
        refine ⟨hne, ?_⟩
        rcases hpar with hpar | hpar
        · exact Or.inl hpar
        · exact Or.inr ((insertKey_mem _ _ _).2 (Or.inl hpar))
      · subst h
        constructor
        · intro h0
          rcases List.take_eq_nil_iff.1 h0 with h1 | h1
          · exact Nat.succ_ne_zero m h1
          · exact hdir h1
        · rw [take_succ_dropLast dir m hn]
          cases m with
          | zero => exact Or.inl (List.take_zero dir)
          | succ j =>
              exact Or.inr ((insertKey_mem _ _ _).2
                (Or.inl (addPrefixesAux_take ks dir (j + 1) j (Nat.lt_succ_self j))))

/-- `extractStep` preserves closure. -/
theorem extractStep_closed (acc : List (List String)) (f : FileMetadata)
    (hacc : ClosedKeys acc) : ClosedKeys (extractStep acc f) := by
  cases hrel : f.relativePath with
  | none => simpa [extractStep, hrel] using hacc
  | some rp =>
      by_cases h : rp.dropLast = []
      · simpa [extractStep, hrel, h] using hacc
      · simp only [extractStep, hrel, if_neg h]
        unfold addPrefixes
        exact addPrefixesAux_closed acc rp.dropLast rp.dropLast.length
          (Nat.le_refl _) h hacc

/-- The key set produced by `extractFolderStructure` is closed. -/
theorem extractFolderStructure_closed (files : List FileMetadata) :
    ClosedKeys (extractFolderStructure files) := by
  unfold extractFolderStructure
  have hgen : ∀ acc, ClosedKeys acc → ClosedKeys (files.foldl extractStep acc) := by
    induction files with
    | nil => exact fun acc h => h
    | cons f rest ih =>
        intro acc hacc
        exact ih (extractStep acc f) (extractStep_closed acc f hacc)
  exact hgen [] (fun k hk => absurd hk (List.not_mem_nil k))

/-- Keys survive `indexSet`. -/
theorem indexSet_keys_mem (m : List (List String × String)) (k v a)
    (ha : a ∈ indexKeys m) : a ∈ indexKeys (indexSet m k v) := by
  unfold indexSet
  by_cases h : m.any (fun e => e.1 == k)
  · rw [if_pos h]
    obtain ⟨e, he, hea⟩ := List.mem_map.1 ha
    unfold indexKeys
    rw [List.map_map]
    apply List.mem_map.2
    refine ⟨e, he, ?_⟩
    by_cases hek : e.1 == k
    · simp only [Function.comp, hek, if_pos]
      rw [← hea]
      exact (eq_of_beq hek).symm
    · simp only [Function.comp, hek]
      simpa using hea
  · rw [if_neg h]
    unfold indexKeys at ha ⊢
    rw [List.map_append]
    exact List.mem_append.2 (Or.inl ha)

/-- The key written by `indexSet` is a key afterwards. -/
theorem indexSet_keys_self (m : List (List String × String)) (k v) :
    k ∈ indexKeys (indexSet m k v) := by
  unfold indexSet
  by_cases h : m.any (fun e => e.1 == k)
  · rw [if_pos h]
    obtain ⟨e, he, hek⟩ := List.any_eq_true.1 h
    unfold indexKeys
    rw [List.map_map]
    apply List.mem_map.2
    refine ⟨e, he, ?_⟩
    simp only [Function.comp, hek, if_pos]
  · rw [if_neg h]
    unfold indexKeys
    rw [List.map_append]
    exact List.mem_append.2 (Or.inr (by simp))

/-- The hierarchy loop never discards index keys. -/
theorem createFolderStructure_keys_mono (l : List (List String)) (acc : HierAcc)
    (k : List String) (hk : k ∈ indexKeys acc.index) :
    k ∈ indexKeys (createFolderStructure l acc).index := by
  induction l generalizing acc with
  | nil => exact hk
  | cons p rest ih =>
      exact ih (createFolderStep acc p) (indexSet_keys_mem acc.index p _ k hk)

/-- After the hierarchy loop, every processed path is a key of the index. -/
theorem createFolderStructure_keys_processed (l : List (List String)) (acc : HierAcc)
    (p : List String) (hp : p ∈ l) :
    p ∈ indexKeys (createFolderStructure l acc).index := by
  induction l generalizing acc with
  | nil => exact absurd hp (List.not_mem_nil p)
  | cons q rest ih =>
      rcases List.mem_cons.1 hp with h | h
      · subst h
        exact createFolderStructure_keys_mono rest (createFolderStep acc p) p
          (indexSet_keys_self acc.index p _)
      · exact ih (createFolderStep acc q) h

/-- Claim C6: hierarchy construction processes the derived relative-directory
paths in nondecreasing depth order; at the moment each folder is created its
parent path is already mapped in the index (or is "." — here `[]` — the chosen
destination); and after the loop, every proper prefix of the directory part of
any unit's relative path is a key of the index, so it is mapped before any unit
with a non-trivial relative path is uploaded. -/
theorem hierarchy_parent_before_child (files : List FileMetadata) (folderId : String)
    (st : DriveState) :
    List.Sorted depthLe (sortFoldersByDepth (extractFolderStructure files)) ∧
    (∀ l₁ p l₂,
      sortFoldersByDepth (extractFolderStructure files) = l₁ ++ p :: l₂ →
      p.dropLast = [] ∨
        p.dropLast ∈ indexKeys
          ((createFolderStructure l₁ (initHierAcc folderId st)).index)) ∧
    (∀ f ∈ files, ∀ rp, f.relativePath = some rp → ∀ i, i < rp.dropLast.length →
      rp.dropLast.take (i + 1) ∈ indexKeys
        ((createFolderStructure (sortFoldersByDepth (extractFolderStructure files))
          (initHierAcc folderId st)).index)) := by
  have hsorted : List.Sorted depthLe (sortFoldersByDepth (extractFolderStructure files)) :=
    List.sorted_insertionSort depthLe (extractFolderStructure files)
  have hperm : ∀ k, k ∈ sortFoldersByDepth (extractFolderStructure files) ↔
      k ∈ extractFolderStructure files :=
    fun k => (List.perm_insertionSort depthLe (extractFolderStructure files)).mem_iff
  refine ⟨hsorted, ?_, ?_⟩
  · intro l₁ p l₂ hsplit
    have hpmem : p ∈ extractFolderStructure files := by
      rw [← hperm]
      rw [hsplit]
      exact List.mem_append.2 (Or.inr (List.mem_cons_self p l₂))
    obtain ⟨hpne, hpar⟩ := extractFolderStructure_closed files p hpmem
    rcases hpar with hpar | hpar
    · exact Or.inl hpar
    · right
      have hplen : p.dropLast.length < p.length := by
        rw [List.length_dropLast]
        have : 0 < p.length := List.length_pos.2 hpne
        omega
      have hparsorted : p.dropLast ∈ sortFoldersByDepth (extractFolderStructure files) :=
        (hperm p.dropLast).2 hpar
      rw [hsplit] at hparsorted
      have hpl₁ : p.dropLast ∈ l₁ := by
        rcases List.mem_append.1 hparsorted with h | h
        · exact h
        · exfalso
          rw [hsplit] at hsorted
          have hpw := (List.pairwise_append.1 hsorted).2.1
          rcases List.mem_cons.1 h with h | h
          · rw [h] at hplen
            exact Nat.lt_irrefl _ hplen
          · have : depthLe p p.dropLast := (List.pairwise_cons.1 hpw).1 p.dropLast h
            unfold depthLe at this
            omega
      exact createFolderStructure_keys_processed l₁ (initHierAcc folderId st) p.dropLast hpl₁
  · intro f hf rp hrp i hi
    apply createFolderStructure_keys_processed
    rw [hperm]
    exact extractFolderStructure_mem files [] f hf rp hrp i hi

/-- Witness for C6 on the spec's scenario: a unit with relative path
`photos/sub/y.png` leads to both "photos" and "photos/sub" being mapped in the
final index. -/
theorem hierarchy_parent_before_child_witness :
    ["photos"] ∈ indexKeys
      ((createFolderStructure
        (sortFoldersByDepth (extractFolderStructure
          [{ path := ["u", "photos", "sub", "y.png"], name := "y.png",
             relativePath := some ["photos", "sub", "y.png"] }]))
        (initHierAcc "root" { folders := [], nextId := 0 })).index) ∧
    ["photos", "sub"] ∈ indexKeys
      ((createFolderStructure
        (sortFoldersByDepth (extractFolderStructure
          [{ path := ["u", "photos", "sub", "y.png"], name := "y.png",
             relativePath := some ["photos", "sub", "y.png"] }]))
        (initHierAcc "root" { folders := [], nextId := 0 })).index) := by
  have h := (hierarchy_parent_before_child
    [{ path := ["u", "photos", "sub", "y.png"], name := "y.png",
       relativePath := some ["photos", "sub", "y.png"] }] "root"
    { folders := [], nextId := 0 }).2.2
    { path := ["u", "photos", "sub", "y.png"], name := "y.png",
      relativePath := some ["photos", "sub", "y.png"] }
    (List.mem_cons_self _ _) ["photos", "sub", "y.png"] rfl
  exact ⟨h 0 (by decide), h 1 (by decide)⟩

end GDriveUpload
